import Mathlib

/-!
Verification of the iterable-collection core: a shallow embedding of the
Entity/Collection immutable data model (src/model/Entity.ts,
src/model/Collection.ts), the lens algebra (src/lens/lens.ts) and the two
fluent safe-navigation wrappers (src/fluent.ts FluentNavigator and
src/lens/lens.ts LensOps), together with theorems settling the spec claims.

JavaScript runtime values are modelled by the inductive type JSVal; the
distinct JS values null and undefined are the constructors jnull and jundefined.
Numbers are modelled as integers, which is enough for every claim considered
here. All operations are total Lean functions, so an operation modelled here
without an explicit exception channel cannot throw; where a caller-supplied
callback may throw, the callback is modelled in the Except monad and the
surrounding operation is translated so that a thrown exception either
propagates (Except.error in the result) or is caught, exactly as in the
source.
-/

namespace IterColl

/-- JavaScript runtime values as used by the library: undefined, null,
booleans, numbers, strings, arrays and plain objects (ordered field lists). -/
inductive JSVal : Type where
  | jundefined : JSVal
  | jnull : JSVal
  | jbool : Bool → JSVal
  | jnum : Int → JSVal
  | jstr : String → JSVal
  | jarr : List JSVal → JSVal
  | jobj : List (String × JSVal) → JSVal

/-- JS loose nullish test: v == null holds exactly for null and undefined. -/
def JSVal.isNullish : JSVal → Bool
  | .jundefined => true
  | .jnull => true
  | _ => false

/-- JS strict test v === null. -/
def JSVal.isJsNull : JSVal → Bool
  | .jnull => true
  | _ => false

/-- JS strict test v === undefined. -/
def JSVal.isUndefined : JSVal → Bool
  | .jundefined => true
  | _ => false

/-- Array.isArray. -/
def JSVal.isArray : JSVal → Bool
  | .jarr _ => true
  | _ => false

/-- Test for a plain object value. -/
def JSVal.isObject : JSVal → Bool
  | .jobj _ => true
  | _ => false

/-- JS truthiness test, negated: the values v for which !v holds. -/
def JSVal.isFalsy : JSVal → Bool
  | .jundefined => true
  | .jnull => true
  | .jbool b => !b
  | .jnum n => n == 0
  | .jstr s => s == ""
  | _ => false

/-- JS property read v[k] on a non-nullish value: the field value on an
object that has the field, undefined otherwise (missing field, or a
primitive/array receiver without such a data property). -/
def getField : JSVal → String → JSVal
  | .jobj fs, k =>
      match fs.find? (fun p => p.1 == k) with
      | some p => p.2
      | none => .jundefined
  | _, _ => .jundefined

/-- Field update on an ordered field list, as produced by the object spread
expression: the first binding of the key is replaced in place, a missing key
is appended at the end. -/
def setPairs : List (String × JSVal) → String → JSVal → List (String × JSVal)
  | [], k, a => [(k, a)]
  | p :: ps, k, a => if p.1 == k then (k, a) :: ps else p :: setPairs ps k a

/-- JS object spread with one overridden field: on an object it
replaces/appends the field keeping key order; spreading a primitive yields an
object holding only the new field. -/
def setField : JSVal → String → JSVal → JSVal
  | .jobj fs, k, a => .jobj (setPairs fs k a)
  | _, k, a => .jobj [(k, a)]

/-- JS nullish coalescing to null: v ?? null. -/
def nullishToNull (v : JSVal) : JSVal :=
  if v.isNullish then .jnull else v

/-- A lens as in src/lens/lens.ts: get reports absence as the JS value null,
set and modify rebuild the source. -/
structure JsLens where
  get : JSVal → JSVal
  set : JSVal → JSVal → JSVal
  modify : JSVal → (JSVal → JSVal) → JSVal

/-- The property lens prop(key) of src/lens/lens.ts: get is
s != null && s[key] !== undefined ? s[key] : null; set spreads the source
with the field overridden (or builds a one-field object from a nullish
source); modify rewrites a defined field in place and is the identity
otherwise. -/
def prop (k : String) : JsLens where
  get s :=
    if s.isNullish then .jnull
    else if (getField s k).isUndefined then .jnull
    else getField s k
  set s a :=
    if s.isNullish then .jobj [(k, a)] else setField s k a
  modify s f :=
    if s.isNullish then s
    else if (getField s k).isUndefined then s
    else setField s k (f (getField s k))

/-- Lens composition compose(lens1, lens2) of src/lens/lens.ts: get and set
test the outer focus strictly against null; modify also tests the inner
focus. -/
def compose (l1 l2 : JsLens) : JsLens where
  get s :=
    if (l1.get s).isJsNull then .jnull else l2.get (l1.get s)
  set s b :=
    if (l1.get s).isJsNull then s else l1.set s (l2.set (l1.get s) b)
  modify s f :=
    if (l1.get s).isJsNull then s
    else if (l2.get (l1.get s)).isJsNull then s
    else l1.set s (l2.set (l1.get s) (f (l2.get (l1.get s))))

/-- The identity lens of L.id in src/lens/lens.ts, transcribed verbatim:
get returns the source, set returns the new focus, and modify applies the
callback to null (the source code literally reads f(null as any)). -/
def idLens : JsLens where
  get s := s
  set _ a := a
  modify _ f := f JSVal.jnull

/-- The modify field of the inline identity lens used by view/from in
src/lens/lens.ts, transcribed verbatim: the source code reads
modify: (_, f) => f, so the call returns the callback itself (a function,
not a value of the source type; the surrounding as-cast silences the type
error). Its get/set fields are viewGet/viewSet below. -/
def viewModify (_s : JSVal) (f : JSVal → JSVal) : JSVal → JSVal := f

/-- get of the inline identity lens used by view/from. -/
def viewGet (s : JSVal) : JSVal := s

/-- set of the inline identity lens used by view/from. -/
def viewSet (_s a : JSVal) : JSVal := a

/-- The structural-sharing clone-and-edit primitive used by update.
Modelled from the spec: produce comes from the external immer dependency,
whose contract the spec states as: never mutates its first argument, returns
a value structurally equal to the edited draft, and unrelated substructures
may be reference-shared with the input. In the pure embedding the draft edit
is expressed as a function and produce applies it. -/
def produce (v : JSVal) (edit : JSVal → JSVal) : JSVal := edit v

/-- produce for a draft of a record array, as used by Collection.update. -/
def produceList (vs : List JSVal) (edit : List JSVal → List JSVal) : List JSVal := edit vs

/-- An Entity of src/model/Entity.ts: an optional held record, an optional
parent context record, and a tag standing for the concrete runtime subtype
reached through this.constructor. An absent (undefined) held value is
modelled as none. Object.freeze in the constructor is modelled by the
pure semantics: no operation below mutates a held record in place. -/
structure Entity where
  tag : String
  value : Option JSVal
  parent : Option JSVal

/-- Entity.exists: this.value !== undefined. -/
def Entity.exists (e : Entity) : Bool := e.value.isSome

/-- Entity.isEmpty: this.value === undefined. -/
def Entity.isEmpty (e : Entity) : Bool := e.value.isNone

/-- Entity.raw: returns the held value unchanged. -/
def Entity.raw (e : Entity) : Option JSVal := e.value

/-- Entity.name: this.value?.name (undefined when the entity is empty or the
record has no name field). -/
def Entity.name (e : Entity) : JSVal :=
  match e.value with
  | none => .jundefined
  | some v => getField v "name"

/-- Entity.id: this.value?._key?.id with JS optional chaining. -/
def Entity.id (e : Entity) : JSVal :=
  match e.value with
  | none => .jundefined
  | some v =>
      if (getField v "_key").isNullish then .jundefined
      else getField (getField v "_key") "id"

/-- Entity.update of src/model/Entity.ts: if (!this.value) return this
(a JS falsy test; for the object-typed records of the library this is the
absence test), otherwise a new entity of the same concrete subtype holding
produce(this.value, updater) and the same parent. -/
def Entity.update (e : Entity) (edit : JSVal → JSVal) : Entity :=
  match e.value with
  | none => e
  | some v =>
      if v.isFalsy then e
      else { tag := e.tag, value := some (produce v edit), parent := e.parent }

/-- A Collection of src/model/Collection.ts: the frozen backing sequence of
records, the optional parent, a tag for the concrete collection subtype
(this.constructor) and a tag for the entity subtype produced by the
subclass hook createEntity. -/
structure Collection where
  tag : String
  entityTag : String
  values : List JSVal
  parent : Option JSVal

/-- The createEntity subclass hook in its canonical form (as in the
repository test subclasses): wrap the optional record and the collection
parent in a new entity of the collection's entity subtype. -/
def Collection.createEntity (c : Collection) (d : Option JSVal) : Entity :=
  { tag := c.entityTag, value := d, parent := c.parent }

/-- Collection.create: new this.constructor(values, this.parent); the
concrete subtype and the parent are kept, only the backing values change. -/
def Collection.create (c : Collection) (vs : List JSVal) : Collection :=
  { c with values := vs }

/-- Collection.raw: the frozen backing sequence. -/
def Collection.raw (c : Collection) : List JSVal := c.values

/-- JS indexed read values[i] at an integer index: undefined (none) for a
negative or out-of-range index. -/
def jsIndex (vs : List JSVal) (i : Int) : Option JSVal :=
  if 0 ≤ i then vs[i.toNat]? else none

/-- Collection.at: createEntity(this.values[index]); total, never throws. -/
def Collection.at (c : Collection) (i : Int) : Entity :=
  c.createEntity (jsIndex c.values i)

/-- Collection.length. -/
def Collection.length (c : Collection) : Nat := c.values.length

/-- Collection.toArray: one freshly materialized entity per record, in
order. -/
def Collection.toArray (c : Collection) : List Entity :=
  c.values.map (fun v => c.createEntity (some v))

/-- The loop body of Collection.filter, instrumented with the list of
(entity, index) arguments passed to the predicate: for each index i in
ascending order the loop materializes e = createEntity(values[i]), calls
predicate(e, i) once, and keeps values[i] when the call returns true. -/
def filterLoop (c : Collection) (p : Entity → Nat → Bool) :
    List JSVal → Nat → List JSVal × List (Entity × Nat)
  | [], _ => ([], [])
  | v :: vs, i =>
      let e := c.createEntity (some v)
      let rest := filterLoop c p vs (i + 1)
      (if p e i then v :: rest.1 else rest.1, (e, i) :: rest.2)

/-- Collection.filter: the records kept by the loop, rebuilt through create
(same concrete subtype, same parent). -/
def Collection.filter (c : Collection) (p : Entity → Nat → Bool) : Collection :=
  c.create (filterLoop c p c.values 0).1

/-- The sequence of (entity, index) arguments Collection.filter passes to
its predicate, in call order. -/
def Collection.filterCalls (c : Collection) (p : Entity → Nat → Bool) :
    List (Entity × Nat) :=
  (filterLoop c p c.values 0).2

/-- Collection.map: values.map((v, i) => mapper(createEntity(v), i)). -/
def Collection.map (c : Collection) (m : Entity → Nat → JSVal) : List JSVal :=
  (List.enum c.values).map (fun iv => m (c.createEntity (some iv.2)) iv.1)

/-- Collection.update: create(produce(this.values, updater)). -/
def Collection.update (c : Collection) (edit : List JSVal → List JSVal) : Collection :=
  c.create (produceList c.values edit)

/-- The draft edit of the structural-sharing scenario,
draft => { draft[0].name = "X" }: element 0 of the draft gets its name field
set to the string X, every other element is left shared. -/
def draftSetName0 : List JSVal → List JSVal
  | [] => []
  | v :: rest => setField v "name" (.jstr "X") :: rest

/-- The standalone fluent navigator of src/fluent.ts: holds the current
value directly. -/
structure FluentNavigator where
  data : JSVal

/-- navigate(data). -/
def navigate (d : JSVal) : FluentNavigator := ⟨d⟩

/-- FluentNavigator.get: nullish data yields a null-holding navigator,
otherwise the property value with obj[key] ?? null. -/
def FluentNavigator.get (n : FluentNavigator) (k : String) : FluentNavigator :=
  if n.data.isNullish then ⟨.jnull⟩
  else ⟨nullishToNull (getField n.data k)⟩

/-- Array.prototype.filter with an (element, index) predicate. -/
def jsArrayFilter (xs : List JSVal) (p : JSVal → Nat → Bool) : List JSVal :=
  ((List.enum xs).filter (fun iv => p iv.2 iv.1)).map (fun iv => iv.2)

/-- Array.prototype.map with an (element, index) mapper. -/
def jsArrayMap (xs : List JSVal) (m : JSVal → Nat → JSVal) : List JSVal :=
  (List.enum xs).map (fun iv => m iv.2 iv.1)

/-- FluentNavigator.filter: a navigator holding the filtered array; a
nullish or non-array source yields a navigator holding an empty array (not
absent). -/
def FluentNavigator.filter (n : FluentNavigator) (p : JSVal → Nat → Bool) :
    FluentNavigator :=
  match n.data with
  | .jarr xs => ⟨.jarr (jsArrayFilter xs p)⟩
  | _ => ⟨.jarr []⟩

/-- FluentNavigator.map: a navigator holding the mapped array; a nullish or
non-array source yields a navigator holding an empty array. -/
def FluentNavigator.map (n : FluentNavigator) (m : JSVal → Nat → JSVal) :
    FluentNavigator :=
  match n.data with
  | .jarr xs => ⟨.jarr (jsArrayMap xs m)⟩
  | _ => ⟨.jarr []⟩

/-- FluentNavigator.transform: nullish data yields a null-holding navigator;
otherwise the transformer runs inside try/catch and a thrown exception is
converted to a null-holding navigator. The transformer result is kept
verbatim (no nullish coalescing). -/
def FluentNavigator.transform (n : FluentNavigator)
    (t : JSVal → Except Unit JSVal) : FluentNavigator :=
  if n.data.isNullish then ⟨.jnull⟩
  else
    match t n.data with
    | .ok r => ⟨r⟩
    | .error _ => ⟨.jnull⟩

/-- FluentNavigator.existsWhere: false for nullish data; otherwise the
predicate runs inside try/catch and a thrown exception yields false. -/
def FluentNavigator.existsWhere (n : FluentNavigator)
    (p : JSVal → Except Unit Bool) : Bool :=
  if n.data.isNullish then false
  else
    match p n.data with
    | .ok b => b
    | .error _ => false

/-- FluentNavigator.tap: runs the side effect inside try/catch when a value
is present and always returns the same navigator; the Except codomain makes
visible that no exception escapes. -/
def FluentNavigator.tap (n : FluentNavigator)
    (f : JSVal → Except Unit Unit) : Except Unit FluentNavigator :=
  if n.data.isNullish then Except.ok n
  else
    match f n.data with
    | .ok _ => Except.ok n
    | .error _ => Except.ok n

/-- FluentNavigator.or: the held value when present, the default when the
data is nullish. -/
def FluentNavigator.or (n : FluentNavigator) (dflt : JSVal) : JSVal :=
  if n.data.isNullish then dflt else n.data

/-- The lens-backed fluent wrapper LensOps of src/lens/lens.ts, reduced to
the state its value-level operations read: the source and the get of the
paired lens (the library operations modelled below consult only lens.get). -/
structure LensOps where
  source : JSVal
  lget : JSVal → JSVal

/-- view(source) (exported also as from): pairs the source with the inline
identity lens, whose get is viewGet. -/
def view (s : JSVal) : LensOps := ⟨s, viewGet⟩

/-- LensOps.filter: value !== null && predicate(value) ? value : null.
It returns a bare value-or-null, not a wrapper, and null (absent) when the
focus is absent. -/
def LensOps.filter (o : LensOps) (p : JSVal → Bool) : JSVal :=
  if (o.lget o.source).isJsNull then .jnull
  else if p (o.lget o.source) then o.lget o.source
  else .jnull

/-- LensOps.map: value !== null ? f(value) : null; a bare value-or-null,
null when the focus is absent. -/
def LensOps.map (o : LensOps) (f : JSVal → JSVal) : JSVal :=
  if (o.lget o.source).isJsNull then .jnull else f (o.lget o.source)

/-- LensOps.tap: reads the focus and, when it is not null, calls the side
effect with no try/catch, then returns this; a thrown exception therefore
propagates out of tap, which the Except codomain records. -/
def LensOps.tap (o : LensOps) (f : JSVal → Except Unit Unit) :
    Except Unit LensOps :=
  if (o.lget o.source).isJsNull then Except.ok o
  else
    match f (o.lget o.source) with
    | .ok _ => Except.ok o
    | .error e => Except.error e

/-- The get() of the wrapper produced by LensOps.transform: transform
composes the paired lens with a lens whose get applies the transformer with
no try/catch, so reading the transformed wrapper runs
a !== null ? transformer(a) : null on the outer focus and a thrown
exception propagates. -/
def LensOps.transformGet (o : LensOps) (t : JSVal → Except Unit JSVal) :
    Except Unit JSVal :=
  if (o.lget o.source).isJsNull then Except.ok .jnull
  else t (o.lget o.source)

/-- A heap of JS arrays, used to model reference identity and in-place
mutation for the constructor-copy claim: a reference is an index into the
heap. -/
abbrev ArrayHeap : Type := List (List JSVal)

/-- The Collection constructor body this.values = Object.freeze([...values]):
the contents behind the argument reference are copied into a fresh array;
the result is the extended heap and the reference to the fresh copy, which
raw() then returns identically on every call. -/
def ctorCopy (h : ArrayHeap) (r : Nat) : ArrayHeap × Nat :=
  (h ++ [h.getD r []], List.length h)

/-- In-place mutation of the array behind a reference. -/
def heapWrite (h : ArrayHeap) (r : Nat) (xs : List JSVal) : ArrayHeap :=
  h.set r xs

/-- The three example records with ids 1, 2, 3 of the filter scenario. -/
def rec3 (i : String) : JSVal :=
  .jobj [("_key", .jobj [("rootId", .jstr "test"), ("revisionNo", .jnum 1), ("id", .jstr i)])]

/-- The three-record collection of the filter scenario. -/
def coll3 : Collection :=
  { tag := "TestCollection", entityTag := "TestEntity"
    values := [rec3 "1", rec3 "2", rec3 "3"], parent := none }

/-! Helper lemmas. -/

theorem find?_setPairs (k : String) (a : JSVal) :
    ∀ fs : List (String × JSVal),
      (setPairs fs k a).find? (fun p => p.1 == k) = some (k, a)
  | [] => by simp [setPairs]
  | p :: ps => by
      by_cases hp : (p.1 == k) = true
      · simp [setPairs, hp]
      · have hp' : (p.1 == k) = false := by simp_all
        rw [show setPairs (p :: ps) k a = p :: setPairs ps k a from by simp [setPairs, hp']]
        rw [List.find?_cons_of_neg _ (by simp [hp'])]
        exact find?_setPairs k a ps

theorem getField_setField (v : JSVal) (k : String) (a : JSVal) :
    getField (setField v k a) k = a := by
  cases v <;> simp [setField, getField, find?_setPairs]

theorem setField_not_nullish (v : JSVal) (k : String) (a : JSVal) :
    (setField v k a).isNullish = false := by
  cases v <;> rfl

theorem jsIndex_zero (x : JSVal) (l : List JSVal) :
    jsIndex (x :: l) 0 = some x := by
  simp [jsIndex]

theorem jsIndex_cons_of_pos (x y : JSVal) (l : List JSVal) (j : Nat) (hj : 1 ≤ j) :
    jsIndex (x :: l) (j : Int) = jsIndex (y :: l) (j : Int) := by
  obtain ⟨j', rfl⟩ : ∃ j', j = j' + 1 := ⟨j - 1, by omega⟩
  unfold jsIndex
  rw [if_pos (by omega), if_pos (by omega)]
  have ht : ((j' + 1 : Nat) : Int).toNat = j' + 1 := by omega
  rw [ht]
  simp

theorem filterLoop_calls (c : Collection) (p : Entity → Nat → Bool) :
    ∀ (vs : List JSVal) (i : Nat),
      (filterLoop c p vs i).2
        = (List.enumFrom i vs).map (fun iv => (c.createEntity (some iv.2), iv.1))
  | [], i => by simp [filterLoop, List.enumFrom]
  | v :: vs, i => by
      show (c.createEntity (some v), i) :: (filterLoop c p vs (i + 1)).2 = _
      rw [filterLoop_calls c p vs (i + 1)]
      simp [List.enumFrom]

theorem filterLoop_kept (c : Collection) (p : Entity → Nat → Bool) :
    ∀ (vs : List JSVal) (i : Nat),
      (filterLoop c p vs i).1
        = ((List.enumFrom i vs).filter
            (fun iv => p (c.createEntity (some iv.2)) iv.1)).map (fun iv => iv.2)
  | [], i => by simp [filterLoop, List.enumFrom]
  | v :: vs, i => by
      show (if p (c.createEntity (some v)) i then v :: (filterLoop c p vs (i + 1)).1
            else (filterLoop c p vs (i + 1)).1) = _
      rw [filterLoop_kept c p vs (i + 1)]
      by_cases hp : p (c.createEntity (some v)) i = true
      · simp [List.enumFrom, List.filter_cons, hp]
      · simp [List.enumFrom, List.filter_cons, hp]

theorem compose_get_null (l1 l2 : JsLens) (s : JSVal) (h : l1.get s = JSVal.jnull) :
    (compose l1 l2).get s = JSVal.jnull := by
  simp [compose, h, JSVal.isJsNull]

theorem chain_get_null : ∀ (ls : List JsLens) (l : JsLens) (s : JSVal),
    l.get s = JSVal.jnull → (List.foldl compose l ls).get s = JSVal.jnull
  | [], _, _, h => h
  | l2 :: ls, l, s, h => by
      rw [List.foldl_cons]
      exact chain_get_null ls (compose l l2) s (compose_get_null l l2 s h)

theorem chain_set_null : ∀ (ls : List JsLens) (l2 l : JsLens) (s b : JSVal),
    l.get s = JSVal.jnull → (List.foldl compose l (l2 :: ls)).set s b = s
  | [], l2, l, s, b, h => by
      simp [compose, h, JSVal.isJsNull]
  | l3 :: ls, l2, l, s, b, h => by
      rw [List.foldl_cons]
      exact chain_set_null ls l3 (compose l l2) s b (compose_get_null l l2 s h)

theorem compose_modify_of_get_null (l1 l2 : JsLens) (s : JSVal) (f : JSVal → JSVal)
    (h : (compose l1 l2).get s = JSVal.jnull) :
    (compose l1 l2).modify s f = s := by
  by_cases h1 : (l1.get s).isJsNull = true
  · simp [compose, h1]
  · have h2 : l2.get (l1.get s) = JSVal.jnull := by
      simpa [compose, h1] using h
    simp [compose, h1, h2, JSVal.isJsNull]

theorem chain_modify_of_get_null (ls : List JsLens) (hne : ls ≠ [])
    (l : JsLens) (s : JSVal) (f : JSVal → JSVal)
    (h : (List.foldl compose l ls).get s = JSVal.jnull) :
    (List.foldl compose l ls).modify s f = s := by
  obtain ⟨init, lz, rfl⟩ : ∃ init lz, ls = init ++ [lz] := by
    rcases List.eq_nil_or_concat ls with h0 | ⟨L, b, hL⟩
    · exact absurd h0 hne
    · rw [List.concat_eq_append] at hL
      exact ⟨L, b, hL⟩
  rw [List.foldl_append, List.foldl_cons, List.foldl_nil] at h ⊢
  exact compose_modify_of_get_null _ lz s f h

/-! Claim theorems. -/

/-- C1: for every collection c and integer index i with i < 0 or
i >= c.length, c.at(i) yields an entity whose raw() is undefined and whose
exists() is false; at is a total function of the model, so no exception is
thrown. -/
theorem claim_C1 (c : Collection) (i : Int)
    (h : i < 0 ∨ (c.length : Int) ≤ i) :
    (c.at i).raw = none ∧ (c.at i).exists = false := by
  have hlen : (c.length : Int) = (c.values.length : Int) := rfl
  rw [hlen] at h
  have hnone : jsIndex c.values i = none := by
    unfold jsIndex
    rcases h with h | h
    · rw [if_neg (by omega)]
    · rw [if_pos (by omega), List.getElem?_eq_none (by omega)]
  refine ⟨?_, ?_⟩ <;>
    simp [Collection.at, Collection.createEntity, Entity.raw, Entity.exists, hnone]

/-- Witness for C1: the three-element scenario collection at index 5 and at
index -1. -/
theorem claim_C1_witness :
    ((coll3.at 5).raw = none) ∧ ((coll3.at (-1)).exists = false) :=
  ⟨(claim_C1 coll3 5 (Or.inr (by decide))).1,
   (claim_C1 coll3 (-1) (Or.inl (by decide))).2⟩

/-- C5: an entity holding no value is returned itself by update (a no-op on
the same instance); an entity holding a record value is mapped to a new
entity of the same concrete subtype wrapping produce(value, editFn) and
paired with the same parent. -/
theorem claim_C5 (e : Entity) (edit : JSVal → JSVal) (v : JSVal) :
    (e.value = none → e.update edit = e) ∧
    (e.value = some v → v.isObject = true →
      e.update edit
        = { tag := e.tag, value := some (produce v edit), parent := e.parent }) := by
  constructor
  · intro h
    simp [Entity.update, h]
  · intro h hv
    have hf : v.isFalsy = false := by
      cases v <;> simp_all [JSVal.isObject, JSVal.isFalsy]
    simp [Entity.update, h, hf]

/-- Witness for C5: a valueless entity is returned unchanged; an entity
holding an empty record is rebuilt with the edited value. -/
theorem claim_C5_witness :
    (Entity.update ⟨"T", none, none⟩ (fun v => v) = ⟨"T", none, none⟩) ∧
    (Entity.update ⟨"T", some (JSVal.jobj []), none⟩ (fun _ => JSVal.jobj [("a", JSVal.jnum 1)])
      = ⟨"T", some (JSVal.jobj [("a", JSVal.jnum 1)]), none⟩) :=
  ⟨(claim_C5 ⟨"T", none, none⟩ (fun v => v) (JSVal.jnum 0)).1 rfl,
   (claim_C5 ⟨"T", some (JSVal.jobj []), none⟩ (fun _ => JSVal.jobj [("a", JSVal.jnum 1)])
      (JSVal.jobj [])).2 rfl rfl⟩

/-- C7 counterexample: the round-trip law fails at the value x = undefined:
prop(k).set stores the field as undefined and prop(k).get maps an undefined
field to null, so get(set({}, undefined)) is null, which is not undefined. -/
theorem claim_C7_counterexample :
    (prop "k").get ((prop "k").set (JSVal.jobj []) JSVal.jundefined) = JSVal.jnull ∧
    JSVal.jnull ≠ JSVal.jundefined :=
  ⟨rfl, fun h => JSVal.noConfusion h⟩

/-- C7 as amended: for the property lens P = prop(k), every source s and
every value x other than undefined, P.get(P.set(s, x)) = x. -/
theorem claim_C7 (k : String) (s x : JSVal) (hx : x ≠ JSVal.jundefined) :
    (prop k).get ((prop k).set s x) = x := by
  have hxu : x.isUndefined = false := by
    cases x <;> simp_all [JSVal.isUndefined]
  by_cases hs : s.isNullish = true
  · have h1 : (prop k).set s x = JSVal.jobj [(k, x)] := by simp [prop, hs]
    have h2 : getField (JSVal.jobj [(k, x)]) k = x := by simp [getField, List.find?]
    rw [h1]
    simp [prop, JSVal.isNullish, h2, hxu]
  · have h1 : (prop k).set s x = setField s k x := by simp [prop, hs]
    have h2 : (setField s k x).isNullish = false := setField_not_nullish s k x
    have h3 : getField (setField s k x) k = x := getField_setField s k x
    rw [h1]
    simp [prop, h2, h3, hxu]

/-- Witness for C7: round trip at a number source and a string value. -/
theorem claim_C7_witness :
    (prop "a").get ((prop "a").set (JSVal.jnum 7) (JSVal.jstr "v")) = JSVal.jstr "v" :=
  claim_C7 "a" (JSVal.jnum 7) (JSVal.jstr "v") (fun h => JSVal.noConfusion h)

/-- C9: the identity lenses break the derived-modify law the claim states.
The view/from inline lens has modify (_, f) => f, so modify returns the
callback itself instead of applying it; L.id has modify (_, f) => f(null),
so at the present source 5 with f the identity it returns null although
set(s, f(get(s))) is 5. -/
theorem claim_C9_bug :
    (viewModify (JSVal.jnum 5) (fun v => v) = (fun v => v)) ∧
    (idLens.modify (JSVal.jnum 5) (fun v => v) = JSVal.jnull) ∧
    (idLens.set (JSVal.jnum 5) ((fun v => v) (idLens.get (JSVal.jnum 5))) = JSVal.jnum 5) ∧
    JSVal.jnull ≠ JSVal.jnum 5 :=
  ⟨rfl, rfl, rfl, fun h => JSVal.noConfusion h⟩

/-- C10: constructing a collection copies the argument array into a fresh
frozen slot, so mutating any pre-existing array afterwards (the argument
included) leaves the contents and length behind the collection's backing
reference unchanged, and raw() always yields that same fresh reference. -/
theorem claim_C10 (h : ArrayHeap) (r rm : Nat) (xs : List JSVal)
    (hrm : rm < h.length) :
    ((heapWrite (ctorCopy h r).1 rm xs).getD (ctorCopy h r).2 [] = h.getD r []) ∧
    (((heapWrite (ctorCopy h r).1 rm xs).getD (ctorCopy h r).2 []).length
      = (h.getD r []).length) ∧
    ((ctorCopy h r).2 = h.length) := by
  have hmain :
      (heapWrite (ctorCopy h r).1 rm xs).getD (ctorCopy h r).2 [] = h.getD r [] := by
    show (List.set (h ++ [h.getD r []]) rm xs).getD h.length [] = h.getD r []
    rw [List.getD_eq_getElem?_getD]
    rw [List.getElem?_set_ne (by omega)]
    rw [List.getElem?_concat_length]
    rfl
  exact ⟨hmain, by rw [hmain], rfl⟩

/-- Witness for C10: a two-array heap; the collection is built from array 0,
array 0 is then mutated, and the collection's backing slot still holds the
original contents. -/
theorem claim_C10_witness :
    ((heapWrite (ctorCopy [[JSVal.jnum 1], [JSVal.jnum 2]] 0).1 0 [JSVal.jnum 9]).getD
        (ctorCopy [[JSVal.jnum 1], [JSVal.jnum 2]] 0).2 []
      = [[JSVal.jnum 1], [JSVal.jnum 2]].getD 0 []) :=
  (claim_C10 [[JSVal.jnum 1], [JSVal.jnum 2]] 0 0 [JSVal.jnum 9] (by decide)).1

/-- C6: filter calls its predicate exactly once per element, in ascending
index order, passing the freshly materialized entity of the element and its
zero-based index (the instrumented call trace is exactly the enumerated
element list); the result is built through create, so it has the same
concrete subtype and parent, and holds exactly the records whose predicate
call returned true, in their original relative order; and in the concrete
three-record scenario, filtering on index 1 keeps one record whose id is 2. -/
theorem claim_C6 (c : Collection) (p : Entity → Nat → Bool) :
    (c.filterCalls p
      = (List.enumFrom 0 c.values).map (fun iv => (c.createEntity (some iv.2), iv.1))) ∧
    ((c.filter p).values
      = ((List.enumFrom 0 c.values).filter
          (fun iv => p (c.createEntity (some iv.2)) iv.1)).map (fun iv => iv.2)) ∧
    ((c.filter p).tag = c.tag) ∧
    ((c.filter p).entityTag = c.entityTag) ∧
    ((c.filter p).parent = c.parent) ∧
    ((coll3.filter (fun _ i => i == 1)).length = 1) ∧
    (((coll3.filter (fun _ i => i == 1)).at 0).id = JSVal.jstr "2") :=
  ⟨filterLoop_calls c p c.values 0, filterLoop_kept c p c.values 0,
   rfl, rfl, rfl, rfl, rfl⟩

/-- C2: update on an entity holding w produces a new entity holding the
edited value while the original entity still presents w; the collection
transforms build new collections and leave the original presenting its
backing sequence; after the scenario update draft[0].name = X, element 0 of
the new collection has name X, the original collection's element 0 still
holds its original record, and every element other than 0 of the new
collection is the same as in the original (the edit of one element's draft
never reaches the others). -/
theorem claim_C2 (c : Collection) (v0 : JSVal) (rest : List JSVal)
    (hv : c.values = v0 :: rest) (hobj : v0.isObject = true)
    (e : Entity) (w : JSVal) (hw : e.value = some w) (hwo : w.isObject = true)
    (f : JSVal → JSVal) (p : Entity → Nat → Bool) :
    ((e.update f).value = some (f w)) ∧
    (e.raw = some w) ∧
    (c.length = rest.length + 1) ∧
    (c.toArray = (v0 :: rest).map (fun v => c.createEntity (some v))) ∧
    ((c.filter p).parent = c.parent) ∧
    ((c.update draftSetName0).length = c.length) ∧
    (((c.update draftSetName0).at 0).name = JSVal.jstr "X") ∧
    ((c.at 0).raw = some v0) ∧
    (∀ j : Nat, 1 ≤ j → (c.update draftSetName0).at (j : Int) = c.at (j : Int)) := by
  have hwf : w.isFalsy = false := by
    cases w <;> simp_all [JSVal.isObject, JSVal.isFalsy]
  have hvals : (c.update draftSetName0).values
      = setField v0 "name" (.jstr "X") :: rest := by
    simp [Collection.update, Collection.create, produceList, hv, draftSetName0]
  refine ⟨?_, hw, ?_, ?_, rfl, ?_, ?_, ?_, ?_⟩
  · simp [Entity.update, hw, hwf, produce]
  · simp [Collection.length, hv]
  · simp [Collection.toArray, hv]
  · simp [Collection.length, hvals, hv,
      Collection.update, Collection.create, produceList, draftSetName0]
  · show ((c.update draftSetName0).createEntity
      (jsIndex (c.update draftSetName0).values 0)).name = JSVal.jstr "X"
    rw [hvals, jsIndex_zero]
    show getField (setField v0 "name" (JSVal.jstr "X")) "name" = JSVal.jstr "X"
    exact getField_setField v0 "name" (JSVal.jstr "X")
  · show jsIndex c.values 0 = some v0
    rw [hv, jsIndex_zero]
  · intro j hj
    show Collection.createEntity _ _ = Collection.createEntity _ _
    have hce : (c.update draftSetName0).createEntity = c.createEntity := rfl
    rw [hce, hvals, hv, jsIndex_cons_of_pos (setField v0 "name" (.jstr "X")) v0 rest j hj]

/-- C3 counterexample: for the two-lens chain prop(x) composed with prop(y)
over the source with an x field holding an empty object, the chain itself
is a prefix whose get is absent (null), yet the composed set does not return
the source unchanged: it grafts the y field, so the claim as stated fails. -/
theorem claim_C3_counterexample :
    ((compose (prop "x") (prop "y")).get (JSVal.jobj [("x", JSVal.jobj [])])
      = JSVal.jnull) ∧
    ((compose (prop "x") (prop "y")).set (JSVal.jobj [("x", JSVal.jobj [])]) (JSVal.jnum 1)
      ≠ JSVal.jobj [("x", JSVal.jobj [])]) := by
  refine ⟨rfl, ?_⟩
  intro h
  rw [show (compose (prop "x") (prop "y")).set
        (JSVal.jobj [("x", JSVal.jobj [])]) (JSVal.jnum 1)
      = JSVal.jobj [("x", JSVal.jobj [("y", JSVal.jnum 1)])] from rfl] at h
  simp at h

/-- C3 as amended: for a composed chain of at least two lenses, if the get
of any prefix is absent at s then the full composed get is absent and the
composed modify returns s unchanged; the composed set also returns s
unchanged provided the absent prefix is a proper prefix (shorter than the
whole chain). When only the full chain's own get is absent, set may graft
the missing focus instead (see the counterexample). The chain l1, l2, ls is
composed left to right and take j selects the prefix of length j + 1. -/
theorem claim_C3 (l1 l2 : JsLens) (ls : List JsLens) (s b : JSVal)
    (f : JSVal → JSVal) (j : Nat) (hj : j ≤ (l2 :: ls).length)
    (habs : (List.foldl compose l1 ((l2 :: ls).take j)).get s = JSVal.jnull) :
    ((List.foldl compose l1 (l2 :: ls)).get s = JSVal.jnull) ∧
    ((List.foldl compose l1 (l2 :: ls)).modify s f = s) ∧
    (j < (l2 :: ls).length → (List.foldl compose l1 (l2 :: ls)).set s b = s) := by
  have hsplit : List.foldl compose l1 (l2 :: ls)
      = List.foldl compose (List.foldl compose l1 ((l2 :: ls).take j))
          ((l2 :: ls).drop j) := by
    rw [← List.foldl_append, List.take_append_drop]
  have hget : (List.foldl compose l1 (l2 :: ls)).get s = JSVal.jnull := by
    rw [hsplit]
    exact chain_get_null _ _ s habs
  refine ⟨hget, ?_, ?_⟩
  · exact chain_modify_of_get_null (l2 :: ls) (by simp) l1 s f hget
  · intro hlt
    obtain ⟨d, ds, hd⟩ : ∃ d ds, (l2 :: ls).drop j = d :: ds := by
      cases hdd : (l2 :: ls).drop j with
      | nil =>
          have := List.drop_eq_nil_iff.mp hdd
          omega
      | cons d ds => exact ⟨d, ds, rfl⟩
    rw [hsplit, hd]
    exact chain_set_null ds d _ s b habs

/-- Witness for C3: the chain prop(x) composed with prop(y) over the empty
object; the length-one prefix prop(x) already reads absent, so the full get
is absent and both modify and set leave the source unchanged. -/
theorem claim_C3_witness :
    ((List.foldl compose (prop "x") [prop "y"]).get (JSVal.jobj []) = JSVal.jnull) ∧
    ((List.foldl compose (prop "x") [prop "y"]).set (JSVal.jobj []) (JSVal.jnum 1)
      = JSVal.jobj []) :=
  ⟨(claim_C3 (prop "x") (prop "y") [] (JSVal.jobj []) (JSVal.jnum 1)
      (fun v => v) 0 (by decide) rfl).1,
   (claim_C3 (prop "x") (prop "y") [] (JSVal.jobj []) (JSVal.jnum 1)
      (fun v => v) 0 (by decide) rfl).2.2 (by decide)⟩

/-- Witness for C2 on the three-record scenario collection: the updated
collection's element 0 carries name X and its element 1 is unchanged. -/
theorem claim_C2_witness :
    (((coll3.update draftSetName0).at 0).name = JSVal.jstr "X") ∧
    ((coll3.update draftSetName0).at 1 = coll3.at 1) :=
  ⟨(claim_C2 coll3 (rec3 "1") [rec3 "2", rec3 "3"] rfl rfl
      ⟨"T", some (JSVal.jobj []), none⟩ (JSVal.jobj []) rfl rfl
      (fun v => v) (fun _ _ => true)).2.2.2.2.2.2.1,
   (claim_C2 coll3 (rec3 "1") [rec3 "2", rec3 "3"] rfl rfl
      ⟨"T", some (JSVal.jobj []), none⟩ (JSVal.jobj []) rfl rfl
      (fun v => v) (fun _ _ => true)).2.2.2.2.2.2.2.2 1 (by decide)⟩

/-- C4 counterexample: the lens-backed wrapper does not swallow callback
exceptions. tap on a view of a present value runs the side-effect callback
with no try/catch, so a throwing callback makes tap itself throw instead of
returning the wrapper. -/
theorem claim_C4_counterexample :
    ((view (JSVal.jstr "abc")).tap (fun _ => Except.error ()) = Except.error ()) ∧
    ((Except.error () : Except Unit LensOps)
      ≠ Except.ok (view (JSVal.jstr "abc"))) :=
  ⟨rfl, fun h => Except.noConfusion h⟩

/-- C4 as amended: the standalone navigator swallows navigation-time
exceptions: transform with a throwing callback yields an absent-holding
navigator, existsWhere with a throwing predicate returns false, tap always
returns the same navigator without letting the exception escape, and the
concrete chain navigate({v:"abc"}).transform(throwing).or("ERR") yields ERR.
The lens-backed wrapper, by contrast, propagates callback exceptions from
tap and from reading a transform result. -/
theorem claim_C4 (d src : JSVal) (t t2 : JSVal → Except Unit JSVal)
    (pq : JSVal → Except Unit Bool) (u fz : JSVal → Except Unit Unit)
    (ht : t d = Except.error ()) (hp : pq d = Except.error ())
    (hs : src.isJsNull = false) (hf : fz src = Except.error ())
    (ht2 : t2 src = Except.error ()) :
    ((navigate d).transform t = ⟨JSVal.jnull⟩) ∧
    ((navigate d).existsWhere pq = false) ∧
    ((navigate d).tap u = Except.ok (navigate d)) ∧
    (((navigate (JSVal.jobj [("v", JSVal.jstr "abc")])).transform
        (fun _ => Except.error ())).or (JSVal.jstr "ERR") = JSVal.jstr "ERR") ∧
    ((view src).tap fz = Except.error ()) ∧
    ((view src).transformGet t2 = Except.error ()) := by
  refine ⟨?_, ?_, ?_, rfl, ?_, ?_⟩
  · by_cases hd : d.isNullish = true
    · simp [navigate, FluentNavigator.transform, hd]
    · simp [navigate, FluentNavigator.transform, hd, ht]
  · by_cases hd : d.isNullish = true
    · simp [navigate, FluentNavigator.existsWhere, hd]
    · simp [navigate, FluentNavigator.existsWhere, hd, hp]
  · by_cases hd : d.isNullish = true
    · simp [navigate, FluentNavigator.tap, hd]
    · cases hu : u d <;> simp [navigate, FluentNavigator.tap, hd, hu]
  · simp [view, viewGet, LensOps.tap, hs, hf]
  · simp [view, viewGet, LensOps.transformGet, hs, ht2]

/-- Witness for C4: concrete throwing callbacks over concrete values; the
navigator converts the exception to absent, the lens-backed tap propagates
it. -/
theorem claim_C4_witness :
    ((navigate (JSVal.jstr "a")).transform (fun _ => Except.error ()) = ⟨JSVal.jnull⟩) ∧
    ((view (JSVal.jstr "b")).tap (fun _ => Except.error ()) = Except.error ()) :=
  ⟨(claim_C4 (JSVal.jstr "a") (JSVal.jstr "b")
      (fun _ => Except.error ()) (fun _ => Except.error ())
      (fun _ => Except.error ()) (fun _ => Except.error ()) (fun _ => Except.error ())
      rfl rfl rfl rfl rfl).1,
   (claim_C4 (JSVal.jstr "a") (JSVal.jstr "b")
      (fun _ => Except.error ()) (fun _ => Except.error ())
      (fun _ => Except.error ()) (fun _ => Except.error ()) (fun _ => Except.error ())
      rfl rfl rfl rfl rfl).2.2.2.2.1⟩

/-- C8 counterexample: the lens-backed wrapper does not return an
empty-array-holding wrapper for an absent source: filter on a view of null
returns the bare value null (absent), which is not an empty array. -/
theorem claim_C8_counterexample :
    ((view JSVal.jnull).filter (fun _ => true) = JSVal.jnull) ∧
    JSVal.jnull ≠ JSVal.jarr [] :=
  ⟨rfl, fun h => JSVal.noConfusion h⟩

/-- C8 as amended: the standalone navigator realizes the
empty-not-absent versus absent distinction: filter and map on an absent or
non-array source yield a wrapper holding an empty array, filter with a
never-matching predicate yields a wrapper holding an empty array, and get on
an absent source yields an absent-carrying wrapper. The lens-backed
wrapper's filter and map instead return the focused value or null directly
(null when the focus is absent), not an empty-array-holding wrapper. -/
theorem claim_C8 (d dn : JSVal) (hd : d.isArray = false) (hdn : dn.isNullish = true)
    (p : JSVal → Nat → Bool) (m : JSVal → Nat → JSVal)
    (xs : List JSVal) (hnone : ∀ iv ∈ List.enum xs, p iv.2 iv.1 = false)
    (k : String) (o : LensOps) (ho : o.lget o.source = JSVal.jnull)
    (pf : JSVal → Bool) (mf : JSVal → JSVal) :
    ((navigate d).filter p = ⟨JSVal.jarr []⟩) ∧
    ((navigate d).map m = ⟨JSVal.jarr []⟩) ∧
    ((navigate (JSVal.jarr xs)).filter p = ⟨JSVal.jarr []⟩) ∧
    ((navigate dn).get k = ⟨JSVal.jnull⟩) ∧
    (o.filter pf = JSVal.jnull) ∧
    (o.map mf = JSVal.jnull) := by
  refine ⟨?_, ?_, ?_, ?_, ?_, ?_⟩
  · cases d <;> simp_all [navigate, FluentNavigator.filter, JSVal.isArray]
  · cases d <;> simp_all [navigate, FluentNavigator.map, JSVal.isArray]
  · simp only [navigate, FluentNavigator.filter, jsArrayFilter]
    rw [List.filter_eq_nil_iff.mpr (by simpa using hnone)]
    rfl
  · simp [navigate, FluentNavigator.get, hdn]
  · simp [LensOps.filter, ho, JSVal.isJsNull]
  · simp [LensOps.map, ho, JSVal.isJsNull]

/-- Witness for C8: a present non-array source (the number 5) for the
navigator filter/map conjuncts, a one-element array with a never-true
predicate, the absent source null for the navigator get conjunct, and a
view of null for the lens-backed conjuncts. -/
theorem claim_C8_witness :
    ((navigate (JSVal.jnum 5)).filter (fun _ _ => false) = ⟨JSVal.jarr []⟩) ∧
    ((navigate (JSVal.jnum 5)).map (fun v _ => v) = ⟨JSVal.jarr []⟩) ∧
    ((navigate (JSVal.jarr [JSVal.jnum 1])).filter (fun _ _ => false) = ⟨JSVal.jarr []⟩) ∧
    ((navigate JSVal.jnull).get "k" = ⟨JSVal.jnull⟩) ∧
    ((view JSVal.jnull).map (fun v => v) = JSVal.jnull) :=
  ⟨(claim_C8 (JSVal.jnum 5) JSVal.jnull rfl rfl (fun _ _ => false) (fun v _ => v)
      [JSVal.jnum 1] (by intro iv _; rfl) "k" (view JSVal.jnull) rfl
      (fun _ => true) (fun v => v)).1,
   (claim_C8 (JSVal.jnum 5) JSVal.jnull rfl rfl (fun _ _ => false) (fun v _ => v)
      [JSVal.jnum 1] (by intro iv _; rfl) "k" (view JSVal.jnull) rfl
      (fun _ => true) (fun v => v)).2.1,
   (claim_C8 (JSVal.jnum 5) JSVal.jnull rfl rfl (fun _ _ => false) (fun v _ => v)
      [JSVal.jnum 1] (by intro iv _; rfl) "k" (view JSVal.jnull) rfl
      (fun _ => true) (fun v => v)).2.2.1,
   (claim_C8 (JSVal.jnum 5) JSVal.jnull rfl rfl (fun _ _ => false) (fun v _ => v)
      [JSVal.jnum 1] (by intro iv _; rfl) "k" (view JSVal.jnull) rfl
      (fun _ => true) (fun v => v)).2.2.2.1,
   (claim_C8 (JSVal.jnum 5) JSVal.jnull rfl rfl (fun _ _ => false) (fun v _ => v)
      [JSVal.jnum 1] (by intro iv _; rfl) "k" (view JSVal.jnull) rfl
      (fun _ => true) (fun v => v)).2.2.2.2.2⟩

end IterColl
